import Mathlib

/-!
Verification development for the skill-manager scripts (audit.py, sync.py,
marketplace-distribute.py): a shallow embedding of the drift classifier,
the installation locator and the per-target reconciliation loops, with
theorems settling the specified properties.

Filesystem model: paths are segment lists; the filesystem is a flat
association list from absolute path to a node (regular file with byte
content, directory, or symbolic link with its recorded target).  Symlink
resolution is fuel-bounded (Python's resolve raises on a symlink loop; the
model returns none there).
-/

namespace SkillManager

/-- An absolute or relative filesystem path, as its list of segments. -/
abbrev Path := List String

/-- A filesystem node: regular file (with content bytes), directory, or
symbolic link recording its target path. -/
inductive Node where
  | file (content : List Nat)
  | dir
  | link (target : Path)
deriving DecidableEq, Repr

/-- Flat filesystem: association list from absolute path to node. -/
abbrev Fs := List (Path × Node)

/-- `Path.is_symlink()`: true iff the entry at `p` is itself a symlink. -/
def Fs.isLink (fs : Fs) (p : Path) : Bool :=
  match fs.lookup p with
  | some (Node.link _) => true
  | _ => false

/-- Fuel-bounded symlink-chain resolution (`Path.resolve()`); `none` models
the error Python raises on a symlink loop. -/
def resolveLink (fs : Fs) : Nat → Path → Option Path
  | 0, _ => none
  | fuel + 1, p =>
    match fs.lookup p with
    | some (Node.link t) => resolveLink fs fuel t
    | _ => some p

/-- `Path.exists()`: follows symlinks; false for a dangling link or a link
loop (Python's exists() returns False in both cases). -/
def Fs.pathExists (fs : Fs) (p : Path) : Bool :=
  match resolveLink fs 40 p with
  | some q => (fs.lookup q).isSome
  | none => false

/-- Read the bytes of the file at `p`, following symlinks; `none` models a
read failure (no file there, a directory, dangling link, loop). -/
def readBytes (fs : Fs) (p : Path) : Option (List Nat) :=
  match resolveLink fs 40 p with
  | some q =>
    match fs.lookup q with
    | some (Node.file c) => some c
    | _ => none
  | none => none

/-- `Path.unlink`: remove the single entry at `p`. -/
def removePath (fs : Fs) (p : Path) : Fs :=
  fs.filter (fun e => e.1 ≠ p)

/-- `shutil.rmtree`: remove the entry at `p` and everything below it. -/
def rmtree (fs : Fs) (p : Path) : Fs :=
  fs.filter (fun e => ¬ p.isPrefixOf e.1)

/-- Insert (or replace) the node at `p`. -/
def insertNode (fs : Fs) (p : Path) (n : Node) : Fs :=
  (p, n) :: fs.filter (fun e => e.1 ≠ p)

/-- `mkdir(parents=True, exist_ok=True)` on the flat model: create the
directory entry when absent. -/
def mkdirP (fs : Fs) (p : Path) : Fs :=
  if (fs.lookup p).isSome then fs else insertNode fs p Node.dir

/-- `shutil.copytree src dst`: copy every entry at or below `src` to the
corresponding path below `dst` (dst assumed removed beforehand). -/
def copyTree (fs : Fs) (src dst : Path) : Fs :=
  (fs.filterMap (fun e =>
    if src.isPrefixOf e.1 then some (dst ++ e.1.drop src.length, e.2)
    else none)) ++ fs

/-- `Path.name`: last path segment. -/
def baseName (p : Path) : String :=
  p.getLastD ""

/-! ## audit.py: fingerprints and the drift classifier -/

/-- Per-file fingerprint data stored in the `files` mapping of a snapshot
(`get_skill_files` entries: content hash and size). -/
structure FileInfo where
  hash : String
  size : Nat
deriving DecidableEq, Repr

/-- `hash_file` (audit.py): MD5 of the file bytes, or the reserved sentinel
string "ERROR" when the file cannot be read.  The digest function `md5` is
a parameter of the model (its output format is characterized separately by
`isMd5Hex`). -/
def hash_file (md5 : List Nat → String) (fs : Fs) (p : Path) : String :=
  match readBytes fs p with
  | some c => md5 c
  | none => "ERROR"

/-- An MD5 hex digest as produced by `hashlib.md5(...).hexdigest()`: exactly
32 lowercase hexadecimal characters. -/
def isMd5Hex (s : String) : Bool :=
  s.length = 32 && s.toList.all (fun c => c.isDigit || ("abcdef".toList.contains c))

/-- `get_skill_files` (audit.py): walk the skill directory (through a
symlinked root, as rglob does) and fingerprint every readable file,
keyed by path relative to the skill root. -/
def get_skill_files (md5 : List Nat → String) (fs : Fs) (skill_path : Path) :
    List (Path × FileInfo) :=
  if fs.pathExists skill_path then
    let root := (resolveLink fs 40 skill_path).getD skill_path
    fs.filterMap (fun e =>
      if root.isPrefixOf e.1 ∧ root.length < e.1.length then
        match readBytes fs e.1 with
        | some c => some (e.1.drop root.length, ⟨hash_file md5 fs e.1, c.length⟩)
        | none => none
      else none)
  else []

/-- One installation snapshot as built by `find_skill_across_platforms`
(the `metadata` field of the source is unused by every property considered
here and is omitted). -/
structure SnapData where
  path : Path
  files : List (Path × FileInfo)
  is_symlink : Bool
  symlink_target : Option Path
deriving DecidableEq, Repr

/-- The classifier's input: ordered mapping platform id → snapshot
(Python dict, insertion ordered). -/
abbrev SkillData := List (String × SnapData)

/-- The snapshot record `find_skill_across_platforms` builds for one
platform's skill path. -/
def locSnap (md5 : List Nat → String) (fs : Fs) (skill_path : Path) : SnapData :=
  { path := skill_path
    files := get_skill_files md5 fs skill_path
    is_symlink := fs.isLink skill_path
    symlink_target :=
      if fs.isLink skill_path then resolveLink fs 40 skill_path else none }

/-- `find_skill_across_platforms` (audit.py): for each configured platform
root, include the platform iff `root/skill_name` exists (following
symlinks, as `Path.exists()` does). -/
def find_skill_across_platforms (md5 : List Nat → String) (fs : Fs)
    (paths : List (String × Path)) (skill_name : String) : SkillData :=
  paths.filterMap (fun e =>
    if fs.pathExists (e.2 ++ [skill_name]) then
      some (e.1, locSnap md5 fs (e.2 ++ [skill_name]))
    else none)

/-- Classifier statuses (audit.py uses the strings "single", "ok",
"synced", "drift"). -/
inductive Status where
  | single
  | ok
  | synced
  | drift
deriving DecidableEq, Repr

/-- One entry of `modified_files[platform]`: the relative path together
with the baseline's hash and the other platform's hash. -/
structure ModEntry where
  file : Path
  base_hash : String
  other_hash : String
deriving DecidableEq, Repr

/-- The comparison report returned by `compare_skill_versions`. -/
structure Comparison where
  status : Status
  platforms : List String
  missing_files : List (String × List Path)
  extra_files : List (String × List Path)
  modified_files : List (String × List ModEntry)
  message : Option String := none
  symlink_target : Option Path := none
  symlink_info : Option (List (String × Option Path) × List (String × Path)) := none
deriving DecidableEq, Repr

/-- Relative paths present in the baseline map but absent from the other
(`set(base) - set(other)`, listed in baseline key order). -/
def missingOf (base other : List (Path × FileInfo)) : List Path :=
  (base.map Prod.fst).filter (fun k => ¬ (other.map Prod.fst).contains k)

/-- Relative paths present in the other map but absent from the baseline
(`set(other) - set(base)`). -/
def extraOf (base other : List (Path × FileInfo)) : List Path :=
  (other.map Prod.fst).filter (fun k => ¬ (base.map Prod.fst).contains k)

/-- Modification entries: for every key common to both maps whose hashes
differ, one entry carrying both hashes. -/
def modifiedOf (base other : List (Path × FileInfo)) : List ModEntry :=
  ((base.map Prod.fst).filter (fun k => (other.map Prod.fst).contains k)).filterMap
    (fun k =>
      match base.lookup k, other.lookup k with
      | some bi, some oi =>
        if bi.hash ≠ oi.hash then some ⟨k, bi.hash, oi.hash⟩ else none
      | _, _ => none)

/-- Accumulated file-level diff (the loop body of `compare_skill_versions`
over `platforms[1:]`): per-platform maps in insertion order; status becomes
drift as soon as any platform contributes an entry. -/
structure DiffAcc where
  status : Status
  missing_files : List (String × List Path)
  extra_files : List (String × List Path)
  modified_files : List (String × List ModEntry)
deriving DecidableEq, Repr

/-- The file-comparison loop of `compare_skill_versions`. -/
def diffAll (base : List (Path × FileInfo)) : List (String × SnapData) → DiffAcc
  | [] => ⟨Status.ok, [], [], []⟩
  | e :: rest =>
    let r := diffAll base rest
    let m := missingOf base e.2.files
    let x := extraOf base e.2.files
    let md := modifiedOf base e.2.files
    { status := if m.isEmpty && x.isEmpty && md.isEmpty then r.status else Status.drift
      missing_files := (if m.isEmpty then [] else [(e.1, m)]) ++ r.missing_files
      extra_files := (if x.isEmpty then [] else [(e.1, x)]) ++ r.extra_files
      modified_files := (if md.isEmpty then [] else [(e.1, md)]) ++ r.modified_files }

/-- The `(platform, symlink_target)` pairs of the symlink snapshots
(`targets` in compare_skill_versions). -/
def symlinkTargets (data : SkillData) : List (String × Option Path) :=
  (data.filter (fun e => e.2.is_symlink)).map (fun e => (e.1, e.2.symlink_target))

/-- `(platform, path)` pairs of the non-symlink snapshots
(`non_symlink_paths`). -/
def nonSymlinkPaths (data : SkillData) : List (String × Path) :=
  (data.filter (fun e => ¬ e.2.is_symlink)).map (fun e => (e.1, e.2.path))

/-- The all-symlinks short-circuit condition: every snapshot is a symlink
and all recorded targets are identical. -/
def allLinkedSame (data : SkillData) : Bool :=
  ((symlinkTargets data).map Prod.snd).dedup.length = 1
    && data.all (fun e => e.2.is_symlink)

/-- The hub-and-spoke short-circuit condition as the code tests it: SOME
symlink's recorded target equals some non-symlink snapshot's (unresolved)
path. -/
def hubSpoke (data : SkillData) : Bool :=
  (symlinkTargets data).any
    (fun t => (nonSymlinkPaths data).any (fun n => t.2 = some n.2))

/-- Whether one of the two symlink short-circuits of
`compare_skill_versions` fires. -/
def symlinkShortcut (data : SkillData) : Bool :=
  data.any (fun e => e.2.is_symlink) && (allLinkedSame data || hubSpoke data)

/-- `compare_skill_versions` (audit.py). -/
def compare_skill_versions (data : SkillData) : Comparison :=
  match data with
  | [] =>
    { status := Status.single, platforms := [],
      missing_files := [], extra_files := [], modified_files := [],
      message := some "Skill only exists on one platform" }
  | [e] =>
    { status := Status.single, platforms := [e.1],
      missing_files := [], extra_files := [], modified_files := [],
      message := some "Skill only exists on one platform" }
  | (bp, bd) :: e :: rest =>
    let data : SkillData := (bp, bd) :: e :: rest
    let platforms := data.map Prod.fst
    if data.any (fun x => x.2.is_symlink) then
      if allLinkedSame data then
        { status := Status.synced, platforms := platforms,
          missing_files := [], extra_files := [], modified_files := [],
          message := some "All platforms symlinked to same source",
          symlink_target := (((symlinkTargets data).map Prod.snd).head?).join }
      else if hubSpoke data then
        { status := Status.synced, platforms := platforms,
          missing_files := [], extra_files := [], modified_files := [],
          message := some "Platforms synced via symlinks",
          symlink_info := some (symlinkTargets data, nonSymlinkPaths data) }
      else
        let d := diffAll bd.files (e :: rest)
        { status := d.status, platforms := platforms,
          missing_files := d.missing_files, extra_files := d.extra_files,
          modified_files := d.modified_files }
    else
      let d := diffAll bd.files (e :: rest)
      { status := d.status, platforms := platforms,
        missing_files := d.missing_files, extra_files := d.extra_files,
        modified_files := d.modified_files }

/-! ## sync.py: the reconciliation loop -/

/-- Per-target outcome recorded by the sync loop (`results['success']`,
`results['skipped']`, `results['failed']`). -/
inductive SyncOutcome where
  | success
  | skipped
  | failed
deriving DecidableEq, Repr

/-- The inputs of `sync_skill` together with the two external collaborators:
`ask` models `prompt_overwrite`'s answer for a given target path, and
`errs` injects an I/O failure at the create step of `symlink_skill` /
`copy_skill` for a given target path (the source wraps those steps in a
broad try/except returning False). -/
structure SyncCtx where
  skill_path : Path
  platform_paths : List (String × Path)
  dry_run : Bool
  force : Bool
  mode : String
  ask : Path → Bool
  errs : Path → Bool

/-- `symlink_skill` (sync.py): remove any existing target (unlink a
symlink, rmtree anything else), then link the target at the fully resolved
source path.  An injected error, or a source whose resolution loops, is
caught by the source's try/except and reported as False with the removal
already performed. -/
def symlink_skill (errs : Path → Bool) (fs : Fs) (source target : Path)
    (dry_run : Bool) : Fs × Bool :=
  if dry_run then (fs, true)
  else
    let fs1 :=
      if fs.pathExists target || fs.isLink target then
        if fs.isLink target then removePath fs target else rmtree fs target
      else fs
    if errs target then (fs1, false)
    else
      match resolveLink fs1 40 source with
      | some s => (insertNode fs1 target (Node.link s), true)
      | none => (fs1, false)

/-- `copy_skill` (sync.py): rmtree an existing target, then recursively
copy the source tree; failures are caught and reported as False. -/
def copy_skill (errs : Path → Bool) (fs : Fs) (source target : Path)
    (dry_run : Bool) : Fs × Bool :=
  if dry_run then (fs, true)
  else
    let fs1 := if fs.pathExists target then rmtree fs target else fs
    if errs target then (fs1, false)
    else (copyTree fs1 source target, true)

/-- The target skill path for a platform directory. -/
def targetSkill (ctx : SyncCtx) (target_dir : Path) : Path :=
  target_dir ++ [baseName ctx.skill_path]

/-- One iteration of the `sync_skill` loop: unknown platform → failed;
existing target without `--force` on a real (non-dry) run consults the
prompt and records skipped on decline; otherwise link or copy per mode. -/
def syncOne (ctx : SyncCtx) (fs : Fs) (platform : String) : Fs × SyncOutcome :=
  match ctx.platform_paths.lookup platform with
  | none => (fs, SyncOutcome.failed)
  | some target_dir =>
    let target := targetSkill ctx target_dir
    let fs1 := if ctx.dry_run then fs else mkdirP fs target_dir
    if (fs1.pathExists target || fs1.isLink target)
        && !ctx.force && !ctx.dry_run && !ctx.ask target then
      (fs1, SyncOutcome.skipped)
    else
      let r :=
        if ctx.mode = "symlink" then
          symlink_skill ctx.errs fs1 ctx.skill_path target ctx.dry_run
        else
          copy_skill ctx.errs fs1 ctx.skill_path target ctx.dry_run
      (r.1, if r.2 then SyncOutcome.success else SyncOutcome.failed)

/-- The aggregate result of `sync_skill`: the three platform lists, in
processing order. -/
structure SyncResults where
  success : List String
  skipped : List String
  failed : List String
deriving DecidableEq, Repr

/-- `sync_skill` (sync.py): process each requested platform in order,
threading the filesystem, and record exactly one outcome per platform. -/
def sync_skill (ctx : SyncCtx) (fs : Fs) : List String → Fs × SyncResults
  | [] => (fs, ⟨[], [], []⟩)
  | p :: rest =>
    let s := syncOne ctx fs p
    let r := sync_skill ctx s.1 rest
    (r.1,
      match s.2 with
      | SyncOutcome.success => { r.2 with success := p :: r.2.success }
      | SyncOutcome.skipped => { r.2 with skipped := p :: r.2.skipped }
      | SyncOutcome.failed => { r.2 with failed := p :: r.2.failed })

/-! ## marketplace-distribute.py: the per-target distribution step -/

/-- One iteration of the `distribute_skills` inner loop
(marketplace-distribute.py): like `syncOne` in LINK mode, but with the
already-linked check: an existing target that is a symlink resolving to
the source's resolved path is counted as skipped ("Already linked
correctly") without touching the filesystem.  A resolution failure
(symlink loop) is treated as not-equal, where Python would raise. -/
def distributeOne (ask errs : Path → Bool) (fs : Fs) (skill_path : Path)
    (skill_name : String) (platform_paths : List (String × Path))
    (dry_run force : Bool) (platform : String) : Fs × SyncOutcome :=
  match platform_paths.lookup platform with
  | none => (fs, SyncOutcome.failed)
  | some target_dir =>
    let target := target_dir ++ [skill_name]
    let fs1 := if dry_run then fs else mkdirP fs target_dir
    let doLink : Fs × SyncOutcome :=
      let r := symlink_skill errs fs1 skill_path target dry_run
      (r.1, if r.2 then SyncOutcome.success else SyncOutcome.failed)
    if fs1.pathExists target || fs1.isLink target then
      if fs1.isLink target
          && (match resolveLink fs1 40 target, resolveLink fs1 40 skill_path with
              | some a, some b => a = b
              | _, _ => false) then
        (fs1, SyncOutcome.skipped)
      else if !force && !dry_run && !ask target then
        (fs1, SyncOutcome.skipped)
      else doLink
    else doLink

/-! ## Concrete instances used by counterexamples and witnesses -/

/-- Two installations whose only common file is unreadable on both sides:
both fingerprints carry the sentinel hash "ERROR". -/
def errHashData : SkillData :=
  [("claude", ⟨["h", ".claude", "skills", "s"], [(["SKILL.md"], ⟨"ERROR", 5⟩)], false, none⟩),
   ("codex", ⟨["h", ".codex", "skills", "s"], [(["SKILL.md"], ⟨"ERROR", 5⟩)], false, none⟩)]

/-- A hub-and-spoke configuration with one stray symlink: claude is the
real copy, codex links to it, gemini links somewhere else entirely. -/
def hubStrayData : SkillData :=
  [("claude", ⟨["a"], [], false, none⟩),
   ("codex", ⟨["x"], [], true, some ["a"]⟩),
   ("gemini", ⟨["g"], [], true, some ["elsewhere"]⟩)]

/-- Two platforms symlinked to the same source. -/
def allLinkedData : SkillData :=
  [("claude", ⟨["c"], [], true, some ["src", "s"]⟩),
   ("codex", ⟨["x"], [], true, some ["src", "s"]⟩)]

/-- A filesystem where the codex target directory already holds a real
skill directory with content, and a real source skill exists. -/
def fsExistingTarget : Fs :=
  [(["t"], Node.dir), (["t", "s"], Node.dir), (["t", "s", "SKILL.md"], Node.file [1]),
   (["src"], Node.dir), (["src", "s"], Node.dir), (["src", "s", "SKILL.md"], Node.file [2])]

/-- A filesystem where the codex target is already a symlink to the
source skill. -/
def fsLinkedTarget : Fs :=
  [(["t"], Node.dir), (["t", "s"], Node.link ["src", "s"]),
   (["src"], Node.dir), (["src", "s"], Node.dir), (["src", "s", "SKILL.md"], Node.file [2])]

/-- A filesystem where the codex target does not exist yet. -/
def fsFreshTarget : Fs :=
  [(["t"], Node.dir), (["src"], Node.dir), (["src", "s"], Node.dir),
   (["src", "s", "SKILL.md"], Node.file [2])]

/-- Sync context: link mode, no force, prompt always declines, no
injected I/O errors. -/
def ctxDecline : SyncCtx :=
  ⟨["src", "s"], [("codex", ["t"])], false, false, "symlink",
   fun _ => false, fun _ => false⟩

/-- `ctxDecline` in dry-run mode. -/
def ctxDeclineDry : SyncCtx := { ctxDecline with dry_run := true }

/-- `ctxDecline` with `--force`. -/
def ctxForce : SyncCtx := { ctxDecline with force := true }

/-- `ctxForce` with an injected I/O failure at the codex target. -/
def ctxForceErr : SyncCtx := { ctxForce with errs := fun t => t = ["t", "s"] }

/-- A platform root whose skill entry is a dangling symlink. -/
def fsDangling : Fs := [(["h", ".claude", "skills", "myskill"], Node.link ["gone"])]

/-- A trivial digest function for closed instances. -/
def constHash : List Nat → String := fun _ => ""

/-- Snapshot A of the spec scenario: one file with hash h1. -/
def specSnapA : SnapData := ⟨["a"], [(["SKILL.md"], ⟨"h1", 1⟩)], false, none⟩

/-- Snapshot B of the spec scenario: the same file with hash h2 plus an
extra file. -/
def specSnapB : SnapData :=
  ⟨["b"], [(["SKILL.md"], ⟨"h2", 1⟩), (["extra.txt"], ⟨"h3", 1⟩)], false, none⟩

/-- A snapshot with zero files. -/
def specSnapEmpty : SnapData := ⟨["c"], [], false, none⟩

/-- A snapshot whose only file is unreadable (sentinel hash). -/
def errSnapOne : SnapData :=
  ⟨["h", ".claude", "skills", "s"], [(["SKILL.md"], ⟨"ERROR", 5⟩)], false, none⟩

/-- A snapshot whose only file carries a genuine MD5 digest. -/
def md5SnapOne : SnapData :=
  ⟨["h", ".codex", "skills", "s"],
   [(["SKILL.md"], ⟨"0cc175b9c0f1b6a831c399e269772661", 1⟩)], false, none⟩

/-! ## Helper lemmas -/

theorem lookup_eq_none_of_not_mem_keys {α β : Type} [BEq α] [LawfulBEq α]
    (l : List (α × β)) (a : α)
    (h : a ∉ l.map Prod.fst) : l.lookup a = none := by
  rw [List.lookup_eq_none_iff]
  intro p hp
  simp only [bne_iff_ne, ne_eq]
  intro hap
  exact h (List.mem_map.mpr ⟨p, hp, hap.symm⟩)

theorem lookup_some_mem_keys {α β : Type} [BEq α] [LawfulBEq α]
    (l : List (α × β)) (a : α) (v : β)
    (h : l.lookup a = some v) : a ∈ l.map Prod.fst := by
  by_contra hn
  rw [lookup_eq_none_of_not_mem_keys l a hn] at h
  exact Option.noConfusion h

theorem resolveLink_succ (fs : Fs) (fuel : Nat) (p : Path) :
    resolveLink fs (fuel + 1) p
      = match fs.lookup p with
        | some (Node.link t) => resolveLink fs fuel t
        | _ => some p := rfl

theorem resolveLink_dir (fs : Fs) (p : Path) (h : fs.lookup p = some Node.dir) :
    resolveLink fs 40 p = some p := by
  rw [show (40 : Nat) = 39 + 1 from rfl, resolveLink_succ, h]

theorem pathExists_of_lookup_dir (fs : Fs) (p : Path) (h : fs.lookup p = some Node.dir) :
    fs.pathExists p = true := by
  rw [Fs.pathExists, resolveLink_dir fs p h]
  simp [h]

theorem mkdirP_of_present (fs : Fs) (p : Path) (h : (fs.lookup p).isSome = true) :
    mkdirP fs p = fs := by
  rw [mkdirP, if_pos h]

theorem contains_keys_of_lookup_some {α β : Type} [BEq α] [LawfulBEq α]
    (l : List (α × β)) (a : α) (v : β) (h : l.lookup a = some v) :
    (l.map Prod.fst).contains a = true :=
  List.elem_iff.mpr (lookup_some_mem_keys l a v h)

theorem lookup_none_of_not_contains {α β : Type} [BEq α] [LawfulBEq α]
    (l : List (α × β)) (a : α) (h : ¬ (l.map Prod.fst).contains a = true) :
    l.lookup a = none :=
  lookup_eq_none_of_not_mem_keys l a (fun hm => h (List.elem_iff.mpr hm))

/-- The file-comparison loop only ever yields ok or drift. -/
theorem diffAll_status_ok_or_drift (base : List (Path × FileInfo)) :
    ∀ tail : List (String × SnapData),
      (diffAll base tail).status = Status.ok ∨ (diffAll base tail).status = Status.drift := by
  intro tail
  induction tail with
  | nil => exact Or.inl rfl
  | cons e t ih =>
    simp only [diffAll]
    split
    · exact ih
    · exact Or.inr rfl

/-- A symlink matching the hub-and-spoke test implies the snapshot list
contains a symlink at all. -/
theorem any_symlink_of_hubSpoke (data : SkillData) (h : hubSpoke data = true) :
    data.any (fun e => e.2.is_symlink) = true := by
  rw [hubSpoke, List.any_eq_true] at h
  obtain ⟨t, ht, _⟩ := h
  rw [symlinkTargets] at ht
  obtain ⟨e, he, rfl⟩ := List.mem_map.mp ht
  exact List.any_eq_true.mpr ⟨e, (List.mem_filter.mp he).1, (List.mem_filter.mp he).2⟩

/-- Unfolding `compare_skill_versions` when neither symlink short-circuit
fires: the report is the file-level one. -/
theorem compare_eq_file (bp : String) (bd : SnapData) (e : String × SnapData)
    (rest : List (String × SnapData))
    (h : symlinkShortcut ((bp, bd) :: e :: rest) = false) :
    compare_skill_versions ((bp, bd) :: e :: rest) =
      { status := (diffAll bd.files (e :: rest)).status
        platforms := ((bp, bd) :: e :: rest).map Prod.fst
        missing_files := (diffAll bd.files (e :: rest)).missing_files
        extra_files := (diffAll bd.files (e :: rest)).extra_files
        modified_files := (diffAll bd.files (e :: rest)).modified_files } := by
  rw [symlinkShortcut, Bool.and_eq_false_iff] at h
  rcases h with h | h
  · simp [compare_skill_versions, h]
  · rw [Bool.or_eq_false_iff] at h
    by_cases hAny : ((bp, bd) :: e :: rest).any (fun x => x.2.is_symlink) = true
    · simp [compare_skill_versions, hAny, h.1, h.2]
    · simp [compare_skill_versions, Bool.eq_false_iff.mpr hAny]

/-- Unfolding `compare_skill_versions` on the hub-and-spoke short-circuit. -/
theorem compare_eq_hub (bp : String) (bd : SnapData) (e : String × SnapData)
    (rest : List (String × SnapData))
    (hAll : allLinkedSame ((bp, bd) :: e :: rest) = false)
    (hHub : hubSpoke ((bp, bd) :: e :: rest) = true) :
    compare_skill_versions ((bp, bd) :: e :: rest) =
      { status := Status.synced
        platforms := ((bp, bd) :: e :: rest).map Prod.fst
        missing_files := [], extra_files := [], modified_files := []
        message := some "Platforms synced via symlinks"
        symlink_info := some (symlinkTargets ((bp, bd) :: e :: rest),
                              nonSymlinkPaths ((bp, bd) :: e :: rest)) } := by
  have hAny := any_symlink_of_hubSpoke _ hHub
  simp [compare_skill_versions, hAny, hAll, hHub]

theorem diffAll_missing_lookup_none (base : List (Path × FileInfo))
    (tail : List (String × SnapData)) (p : String)
    (hp : p ∉ tail.map Prod.fst) :
    (diffAll base tail).missing_files.lookup p = none := by
  induction tail with
  | nil => rfl
  | cons e t ih =>
    simp only [List.map_cons, List.mem_cons, not_or] at hp
    simp only [diffAll, List.lookup_append, ih hp.2, Option.or_none]
    split
    · rfl
    · rw [List.lookup_cons]
      simp [beq_eq_false_iff_ne.mpr hp.1]

theorem diffAll_extra_lookup_none (base : List (Path × FileInfo))
    (tail : List (String × SnapData)) (p : String)
    (hp : p ∉ tail.map Prod.fst) :
    (diffAll base tail).extra_files.lookup p = none := by
  induction tail with
  | nil => rfl
  | cons e t ih =>
    simp only [List.map_cons, List.mem_cons, not_or] at hp
    simp only [diffAll, List.lookup_append, ih hp.2, Option.or_none]
    split
    · rfl
    · rw [List.lookup_cons]
      simp [beq_eq_false_iff_ne.mpr hp.1]

theorem diffAll_modified_lookup_none (base : List (Path × FileInfo))
    (tail : List (String × SnapData)) (p : String)
    (hp : p ∉ tail.map Prod.fst) :
    (diffAll base tail).modified_files.lookup p = none := by
  induction tail with
  | nil => rfl
  | cons e t ih =>
    simp only [List.map_cons, List.mem_cons, not_or] at hp
    simp only [diffAll, List.lookup_append, ih hp.2, Option.or_none]
    split
    · rfl
    · rw [List.lookup_cons]
      simp [beq_eq_false_iff_ne.mpr hp.1]

theorem diffAll_missing_lookup (base : List (Path × FileInfo))
    (tail : List (String × SnapData)) (p : String) (s : SnapData)
    (hN : (tail.map Prod.fst).Nodup) (hmem : (p, s) ∈ tail) :
    (diffAll base tail).missing_files.lookup p =
      if (missingOf base s.files).isEmpty then none
      else some (missingOf base s.files) := by
  induction tail with
  | nil => cases hmem
  | cons e t ih =>
    obtain ⟨a, sa⟩ := e
    simp only [List.map_cons, List.nodup_cons] at hN
    rcases List.mem_cons.mp hmem with heq | hmem2
    · injection heq with h1 h2
      subst h1
      subst h2
      have hp : p ∉ t.map Prod.fst := hN.1
      simp only [diffAll, List.lookup_append,
        diffAll_missing_lookup_none base t p hp, Option.or_none]
      split
      · rfl
      · rw [List.lookup_cons_self]
    · have hpe : p ≠ a := by
        intro hc
        exact hN.1 (hc ▸ List.mem_map.mpr ⟨(p, s), hmem2, rfl⟩)
      simp only [diffAll, List.lookup_append]
      rw [ih hN.2 hmem2]
      have h1 : ∀ l : List Path,
          (if l.isEmpty then ([] : List (String × List Path)) else [(a, l)]).lookup p
            = none := by
        intro l
        split
        · rfl
        · rw [List.lookup_cons]
          simp [beq_eq_false_iff_ne.mpr hpe]
      rw [h1]
      rfl

theorem diffAll_modified_lookup (base : List (Path × FileInfo))
    (tail : List (String × SnapData)) (p : String) (s : SnapData)
    (hN : (tail.map Prod.fst).Nodup) (hmem : (p, s) ∈ tail) :
    (diffAll base tail).modified_files.lookup p =
      if (modifiedOf base s.files).isEmpty then none
      else some (modifiedOf base s.files) := by
  induction tail with
  | nil => cases hmem
  | cons e t ih =>
    obtain ⟨a, sa⟩ := e
    simp only [List.map_cons, List.nodup_cons] at hN
    rcases List.mem_cons.mp hmem with heq | hmem2
    · injection heq with h1 h2
      subst h1
      subst h2
      have hp : p ∉ t.map Prod.fst := hN.1
      simp only [diffAll, List.lookup_append,
        diffAll_modified_lookup_none base t p hp, Option.or_none]
      split
      · rfl
      · rw [List.lookup_cons_self]
    · have hpe : p ≠ a := by
        intro hc
        exact hN.1 (hc ▸ List.mem_map.mpr ⟨(p, s), hmem2, rfl⟩)
      simp only [diffAll, List.lookup_append]
      rw [ih hN.2 hmem2]
      have h1 : ∀ l : List ModEntry,
          (if l.isEmpty then ([] : List (String × List ModEntry)) else [(a, l)]).lookup p
            = none := by
        intro l
        split
        · rfl
        · rw [List.lookup_cons]
          simp [beq_eq_false_iff_ne.mpr hpe]
      rw [h1]
      rfl

theorem diffAll_extra_lookup (base : List (Path × FileInfo))
    (tail : List (String × SnapData)) (p : String) (s : SnapData)
    (hN : (tail.map Prod.fst).Nodup) (hmem : (p, s) ∈ tail) :
    (diffAll base tail).extra_files.lookup p =
      if (extraOf base s.files).isEmpty then none
      else some (extraOf base s.files) := by
  induction tail with
  | nil => cases hmem
  | cons e t ih =>
    obtain ⟨a, sa⟩ := e
    simp only [List.map_cons, List.nodup_cons] at hN
    rcases List.mem_cons.mp hmem with heq | hmem2
    · injection heq with h1 h2
      subst h1
      subst h2
      have hp : p ∉ t.map Prod.fst := hN.1
      simp only [diffAll, List.lookup_append,
        diffAll_extra_lookup_none base t p hp, Option.or_none]
      split
      · rfl
      · rw [List.lookup_cons_self]
    · have hpe : p ≠ a := by
        intro hc
        exact hN.1 (hc ▸ List.mem_map.mpr ⟨(p, s), hmem2, rfl⟩)
      simp only [diffAll, List.lookup_append]
      rw [ih hN.2 hmem2]
      have h1 : ∀ l : List Path,
          (if l.isEmpty then ([] : List (String × List Path)) else [(a, l)]).lookup p
            = none := by
        intro l
        split
        · rfl
        · rw [List.lookup_cons]
          simp [beq_eq_false_iff_ne.mpr hpe]
      rw [h1]
      rfl

/-- Every value stored in the extra_files map is the extra-set of some
snapshot in the tail. -/
theorem diffAll_extra_lookup_some_inv (base : List (Path × FileInfo))
    (tail : List (String × SnapData)) (q : String) (l : List Path)
    (h : (diffAll base tail).extra_files.lookup q = some l) :
    ∃ s, (q, s) ∈ tail ∧ l = extraOf base s.files := by
  induction tail with
  | nil => cases h
  | cons e t ih =>
    obtain ⟨a, sa⟩ := e
    simp only [diffAll, List.lookup_append] at h
    by_cases hemp : (extraOf base sa.files).isEmpty = true
    · rw [if_pos hemp] at h
      simp only [List.lookup_nil, Option.none_or] at h
      obtain ⟨s, hs, hl⟩ := ih h
      exact ⟨s, List.mem_cons_of_mem _ hs, hl⟩
    · rw [if_neg hemp] at h
      by_cases hqa : q = a
      · subst hqa
        rw [List.lookup_cons_self, Option.or_some] at h
        exact ⟨sa, List.mem_cons_self _ _, (Option.some.inj h).symm⟩
      · have hnone : List.lookup q [(a, extraOf base sa.files)] = none := by
          rw [List.lookup_cons]
          simp [beq_eq_false_iff_ne.mpr hqa]
        rw [hnone, Option.none_or] at h
        obtain ⟨s, hs, hl⟩ := ih h
        exact ⟨s, List.mem_cons_of_mem _ hs, hl⟩

/-- If any snapshot in the tail contributes a diff entry, the loop status
is drift. -/
theorem diffAll_status_drift (base : List (Path × FileInfo))
    (tail : List (String × SnapData)) (p : String) (s : SnapData)
    (hmem : (p, s) ∈ tail)
    (h : missingOf base s.files ≠ [] ∨ extraOf base s.files ≠ []
          ∨ modifiedOf base s.files ≠ []) :
    (diffAll base tail).status = Status.drift := by
  induction tail with
  | nil => cases hmem
  | cons e t ih =>
    rcases List.mem_cons.mp hmem with heq | hmem2
    · subst heq
      simp only [diffAll]
      have hc : ((missingOf base s.files).isEmpty && (extraOf base s.files).isEmpty
          && (modifiedOf base s.files).isEmpty) = false := by
        rcases h with h | h | h
        · rw [List.isEmpty_eq_false.mpr h]
          rfl
        · rw [List.isEmpty_eq_false.mpr h, Bool.and_false, Bool.false_and]
        · rw [List.isEmpty_eq_false.mpr h, Bool.and_false]
      rw [hc]
      rfl
    · simp only [diffAll]
      split
      · exact ih hmem2
      · rfl

/-- Entries produced by `modifiedOf` carry their key as the `file` field. -/
theorem modifiedOf_file_eq (base other : List (Path × FileInfo)) (k : Path) (me : ModEntry)
    (h : (match base.lookup k, other.lookup k with
          | some bi, some oi =>
            if bi.hash ≠ oi.hash then some (ModEntry.mk k bi.hash oi.hash) else none
          | _, _ => none) = some me) :
    me.file = k := by
  rcases hb : base.lookup k with _ | bi <;> rcases ho : other.lookup k with _ | oi <;>
    rw [hb, ho] at h
  · exact Option.noConfusion h
  · exact Option.noConfusion h
  · exact Option.noConfusion h
  · have h2 : (if bi.hash ≠ oi.hash then some (ModEntry.mk k bi.hash oi.hash)
        else none) = some me := h
    by_cases hne : bi.hash = oi.hash
    · rw [if_neg (fun hc => hc hne)] at h2
      exact Option.noConfusion h2
    · rw [if_pos hne] at h2
      have h3 := Option.some.inj h2
      rw [← h3]

theorem filter_file_eq_nil (g : Path → Option ModEntry)
    (hg : ∀ k me, g k = some me → me.file = k)
    (l : List Path) (f : Path) (hf : f ∉ l) :
    (l.filterMap g).filter (fun me => me.file == f) = [] := by
  rw [List.filter_eq_nil_iff]
  intro me hme
  obtain ⟨k, hk, hgk⟩ := List.mem_filterMap.mp hme
  have : me.file = k := hg k me hgk
  simp only [this, beq_iff_eq]
  intro hc
  exact hf (hc ▸ hk)

theorem filterMap_filter_file_eq (g : Path → Option ModEntry)
    (hg : ∀ k me, g k = some me → me.file = k) :
    ∀ (l : List Path), l.Nodup → ∀ f, f ∈ l →
      (l.filterMap g).filter (fun me => me.file == f)
        = (g f).elim [] (fun me => [me]) := by
  intro l
  induction l with
  | nil => intro _ f hf; cases hf
  | cons a t ih =>
    intro hN f hf
    rw [List.nodup_cons] at hN
    rcases List.mem_cons.mp hf with rfl | hft
    · rcases hga : g f with _ | me
      · simp only [List.filterMap_cons, hga]
        rw [filter_file_eq_nil g hg t f hN.1]
        rfl
      · simp only [List.filterMap_cons, hga, List.filter_cons]
        have : (me.file == f) = true := beq_iff_eq.mpr (hg f me hga)
        rw [if_pos this, filter_file_eq_nil g hg t f hN.1]
        rfl
    · have hfa : f ≠ a := fun hc => hN.1 (hc ▸ hft)
      rcases hga : g a with _ | me
      · simp only [List.filterMap_cons, hga]
        exact ih hN.2 f hft
      · simp only [List.filterMap_cons, hga, List.filter_cons]
        have : (me.file == f) = false :=
          beq_eq_false_iff_ne.mpr (fun hc => hfa ((hg a me hga) ▸ hc).symm)
        rw [this]
        simp only [Bool.false_eq_true, if_false]
        exact ih hN.2 f hft

/-- The modification list holds exactly one entry for a common path with
differing hashes, carrying both hashes. -/
theorem modifiedOf_filter_eq (base other : List (Path × FileInfo)) (f : Path)
    (bi oi : FileInfo)
    (hN : (base.map Prod.fst).Nodup)
    (hb : base.lookup f = some bi) (ho : other.lookup f = some oi)
    (hne : bi.hash ≠ oi.hash) :
    (modifiedOf base other).filter (fun me => me.file == f)
      = [ModEntry.mk f bi.hash oi.hash] := by
  rw [modifiedOf]
  have hg : ∀ k me, (match base.lookup k, other.lookup k with
      | some bi, some oi =>
        if bi.hash ≠ oi.hash then some (ModEntry.mk k bi.hash oi.hash) else none
      | _, _ => none) = some me → me.file = k :=
    fun k me h => modifiedOf_file_eq base other k me h
  have hcommon : f ∈ (base.map Prod.fst).filter
      (fun k => (other.map Prod.fst).contains k) :=
    List.mem_filter.mpr ⟨lookup_some_mem_keys base f bi hb,
      contains_keys_of_lookup_some other f oi ho⟩
  have hgf : (match base.lookup f, other.lookup f with
      | some bi, some oi =>
        if bi.hash ≠ oi.hash then some (ModEntry.mk f bi.hash oi.hash) else none
      | _, _ => none) = some (ModEntry.mk f bi.hash oi.hash) := by
    rw [hb, ho]
    exact if_pos hne
  rw [filterMap_filter_file_eq _ hg _ (hN.filter _) f hcommon, hgf]
  rfl

/-- No modification entry exists for a path whose hashes do not differ
(including a path absent from the other side). -/
theorem modifiedOf_no_entry (base other : List (Path × FileInfo)) (f : Path)
    (h : ∀ bi oi, base.lookup f = some bi → other.lookup f = some oi →
          bi.hash = oi.hash) :
    ∀ me ∈ modifiedOf base other, me.file ≠ f := by
  intro me hme
  rw [modifiedOf] at hme
  obtain ⟨k, hk, hgk⟩ := List.mem_filterMap.mp hme
  have hfile : me.file = k := modifiedOf_file_eq base other k me hgk
  rw [hfile]
  intro hc
  subst hc
  rcases hbl : base.lookup k with _ | bi <;>
    rcases hol : other.lookup k with _ | oi <;> rw [hbl, hol] at hgk
  · exact Option.noConfusion hgk
  · exact Option.noConfusion hgk
  · exact Option.noConfusion hgk
  · have h2 : (if bi.hash ≠ oi.hash then some (ModEntry.mk k bi.hash oi.hash)
        else none) = some me := hgk
    rw [if_neg (fun hc => hc (h bi oi hbl hol))] at h2
    exact Option.noConfusion h2

/-! ## Claim C10 -/

/-- C10: whenever the classifier returns status SYNCED or SINGLE, the
report's missing_files, extra_files and modified_files mappings are all
empty — the short-circuits return before any file-level entry is added. -/
theorem synced_or_single_has_no_file_diffs (data : SkillData)
    (h : (compare_skill_versions data).status = Status.synced ∨
         (compare_skill_versions data).status = Status.single) :
    (compare_skill_versions data).missing_files = []
      ∧ (compare_skill_versions data).extra_files = []
      ∧ (compare_skill_versions data).modified_files = [] := by
  match data with
  | [] => exact ⟨rfl, rfl, rfl⟩
  | [e] => exact ⟨rfl, rfl, rfl⟩
  | (bp, bd) :: e :: rest =>
    by_cases hs : symlinkShortcut ((bp, bd) :: e :: rest) = true
    · rw [symlinkShortcut, Bool.and_eq_true, Bool.or_eq_true] at hs
      rcases hs with ⟨hAny, hAll | hHub⟩
      · simp [compare_skill_versions, hAny, hAll]
      · by_cases hAll : allLinkedSame ((bp, bd) :: e :: rest) = true
        · simp [compare_skill_versions, hAny, hAll]
        · rw [compare_eq_hub bp bd e rest (Bool.eq_false_iff.mpr hAll) hHub]
          exact ⟨rfl, rfl, rfl⟩
    · rw [compare_eq_file bp bd e rest (Bool.eq_false_iff.mpr hs)] at h ⊢
      rcases diffAll_status_ok_or_drift bd.files (e :: rest) with hok | hdr
      · rcases h with h | h <;> simp [hok] at h
      · rcases h with h | h <;> simp [hdr] at h

/-- Witness for C10 at a concrete synced input. -/
theorem synced_or_single_has_no_file_diffs_witness :
    (compare_skill_versions allLinkedData).status = Status.synced ∧
      ((compare_skill_versions allLinkedData).missing_files = []
        ∧ (compare_skill_versions allLinkedData).extra_files = []
        ∧ (compare_skill_versions allLinkedData).modified_files = []) :=
  ⟨by decide, synced_or_single_has_no_file_diffs allLinkedData (Or.inl (by decide))⟩

/-! ## Claim C1: counterexample -/

/-- C1 counterexample: a path unreadable in both installations carries the
sentinel hash "ERROR" on both sides, yet the classifier reports no
modification entry for it and returns status ok — two unreadable copies
ARE classified as identical, contrary to the claim. -/
theorem error_sentinel_counterexample :
    (errHashData.lookup "claude").map (fun s => s.files.lookup ["SKILL.md"])
        = some (some ⟨"ERROR", 5⟩)
      ∧ (errHashData.lookup "codex").map (fun s => s.files.lookup ["SKILL.md"])
        = some (some ⟨"ERROR", 5⟩)
      ∧ (compare_skill_versions errHashData).modified_files = []
      ∧ (compare_skill_versions errHashData).status = Status.ok := by
  decide

/-! ## Claim C2: counterexample -/

/-- C2 counterexample: one symlink (gemini) points at no non-symlink
snapshot's path, yet the classifier still returns SYNCED via the
hub-and-spoke rule, because the code short-circuits as soon as a single
symlink matches. -/
theorem hub_spoke_counterexample :
    ((symlinkTargets hubStrayData).any
        (fun t => (nonSymlinkPaths hubStrayData).all (fun n => t.2 ≠ some n.2))) = true
      ∧ (compare_skill_versions hubStrayData).status = Status.synced := by
  decide

/-! ## Claim C3: counterexample -/

/-- C3 counterexample: with an existing target, no `--force`, and a user
who declines the overwrite prompt, the dry run reports the link action
(success) while the real run records skipped — preview and execution
diverge. -/
theorem dry_run_parity_counterexample :
    (syncOne ctxDeclineDry fsExistingTarget "codex").2 = SyncOutcome.success
      ∧ (syncOne ctxDecline fsExistingTarget "codex").2 = SyncOutcome.skipped := by
  constructor <;> rfl

/-! ## Claim C4: counterexample -/

/-- C4 counterexample: against a target that is already a symlink to the
source, `distribute_skills` records the already-linked branch as SKIPPED,
not as a distinguished success variant; and `sync_skill` (which has no
already-correct branch at all) reports the same plain success for a forced
second run as for a fresh link, so the two are not distinguishable. -/
theorem link_idempotence_counterexample :
    (distributeOne (fun _ => false) (fun _ => false) fsLinkedTarget
        ["src", "s"] "s" [("codex", ["t"])] false false "codex").2 = SyncOutcome.skipped
      ∧ (syncOne ctxForce fsLinkedTarget "codex").2 = SyncOutcome.success
      ∧ (syncOne ctxForce fsFreshTarget "codex").2 = SyncOutcome.success := by
  refine ⟨rfl, rfl, rfl⟩

/-! ## Claim C5: counterexample -/

/-- C5 counterexample: `root/skill_name` is a dangling symlink; the
locator's `exists()` gate follows the link, finds nothing, and omits the
platform entirely instead of reporting it with is_symlink true. -/
theorem dangling_symlink_counterexample :
    fsDangling.isLink ["h", ".claude", "skills", "myskill"] = true
      ∧ fsDangling.lookup ["gone"] = none
      ∧ find_skill_across_platforms constHash fsDangling
          [("claude", ["h", ".claude", "skills"])] "myskill" = [] := by
  refine ⟨rfl, rfl, rfl⟩

/-! ## Claim C6 -/

/-- C6: for every pair of installations reaching file-level comparison and
every relative path present in both baseline and the other installation
with differing content hashes, modified_files[other_platform] contains
exactly one entry for that path, carrying both (unequal) hashes, and the
final status is DRIFT. -/
theorem modified_entry_exact_and_drift (bp : String) (bd : SnapData)
    (e : String × SnapData) (rest : List (String × SnapData))
    (p : String) (s : SnapData) (f : Path) (bi oi : FileInfo)
    (hsc : symlinkShortcut ((bp, bd) :: e :: rest) = false)
    (hNp : ((e :: rest).map Prod.fst).Nodup)
    (hNb : (bd.files.map Prod.fst).Nodup)
    (hmem : (p, s) ∈ e :: rest)
    (hb : bd.files.lookup f = some bi)
    (ho : s.files.lookup f = some oi)
    (hne : bi.hash ≠ oi.hash) :
    ((((compare_skill_versions ((bp, bd) :: e :: rest)).modified_files.lookup p).getD
        []).filter (fun me => me.file == f)) = [ModEntry.mk f bi.hash oi.hash]
      ∧ (compare_skill_versions ((bp, bd) :: e :: rest)).status = Status.drift := by
  rw [compare_eq_file bp bd e rest hsc]
  have hfilter := modifiedOf_filter_eq bd.files s.files f bi oi hNb hb ho hne
  have hmd : modifiedOf bd.files s.files ≠ [] := by
    intro hc
    rw [hc] at hfilter
    exact List.noConfusion hfilter
  constructor
  · rw [diffAll_modified_lookup bd.files (e :: rest) p s hNp hmem,
      if_neg (by simp [hmd]), Option.getD_some]
    exact hfilter
  · exact diffAll_status_drift bd.files (e :: rest) p s hmem (Or.inr (Or.inr hmd))

/-- Witness for C6 at the spec's own two-platform scenario. -/
theorem modified_entry_exact_and_drift_witness :
    ((((compare_skill_versions
          [("A", specSnapA), ("B", specSnapB)]).modified_files.lookup "B").getD
        []).filter (fun me => me.file == ["SKILL.md"]))
        = [ModEntry.mk ["SKILL.md"] "h1" "h2"]
      ∧ (compare_skill_versions
          [("A", specSnapA), ("B", specSnapB)]).status = Status.drift :=
  modified_entry_exact_and_drift "A" specSnapA ("B", specSnapB) [] "B" specSnapB
    ["SKILL.md"] ⟨"h1", 1⟩ ⟨"h2", 1⟩ (by decide) (by decide) (by decide) (by decide)
    (by decide) (by decide) (by decide)

/-! ## Claim C7 -/

/-- C7: for every pair reaching file-level comparison, a relative path in
the baseline's file map but absent from the other installation's map
appears in missing_files[other_platform], not in that platform's
extra_files or modified_files, and in no platform's extra_files at all;
and a snapshot with zero files participates normally (every baseline file
is missing for it). -/
theorem missing_entry_isolated (bp : String) (bd : SnapData)
    (e : String × SnapData) (rest : List (String × SnapData))
    (p : String) (s : SnapData) (f : Path)
    (hsc : symlinkShortcut ((bp, bd) :: e :: rest) = false)
    (hNp : ((e :: rest).map Prod.fst).Nodup)
    (hmem : (p, s) ∈ e :: rest)
    (hf : f ∈ bd.files.map Prod.fst)
    (habs : (s.files.map Prod.fst).contains f = false) :
    f ∈ (((compare_skill_versions ((bp, bd) :: e :: rest)).missing_files.lookup p).getD [])
      ∧ f ∉ (((compare_skill_versions ((bp, bd) :: e :: rest)).extra_files.lookup p).getD [])
      ∧ (∀ me ∈ (((compare_skill_versions
            ((bp, bd) :: e :: rest)).modified_files.lookup p).getD []), me.file ≠ f)
      ∧ (∀ q l, (compare_skill_versions ((bp, bd) :: e :: rest)).extra_files.lookup q
            = some l → f ∉ l)
      ∧ (∀ p2 s2, (p2, s2) ∈ e :: rest → s2.files = [] →
          (((compare_skill_versions
              ((bp, bd) :: e :: rest)).missing_files.lookup p2).getD [])
            = bd.files.map Prod.fst) := by
  rw [compare_eq_file bp bd e rest hsc]
  have hnotmem : f ∉ s.files.map Prod.fst := by
    intro hm
    exact Bool.noConfusion ((List.elem_iff.mpr hm).symm.trans habs)
  have hfm : f ∈ missingOf bd.files s.files := by
    rw [missingOf, List.mem_filter]
    refine ⟨hf, ?_⟩
    rw [decide_eq_true_eq]
    intro hc
    exact Bool.noConfusion (hc.symm.trans habs)
  refine ⟨?_, ?_, ?_, ?_, ?_⟩
  · rw [diffAll_missing_lookup bd.files (e :: rest) p s hNp hmem,
      if_neg (by simp [List.ne_nil_of_mem hfm]), Option.getD_some]
    exact hfm
  · rw [diffAll_extra_lookup bd.files (e :: rest) p s hNp hmem]
    split
    · simp
    · rw [Option.getD_some]
      intro hfe
      exact hnotmem (List.mem_of_mem_filter hfe)
  · have hlook : s.files.lookup f = none :=
      lookup_none_of_not_contains s.files f (fun hc => Bool.noConfusion (hc.symm.trans habs))
    rw [diffAll_modified_lookup bd.files (e :: rest) p s hNp hmem]
    split
    · simp
    · rw [Option.getD_some]
      exact modifiedOf_no_entry bd.files s.files f
        (fun bi oi _ hoi => Option.noConfusion (hlook ▸ hoi))
  · intro q l hql
    obtain ⟨s2, _, rfl⟩ := diffAll_extra_lookup_some_inv bd.files (e :: rest) q l hql
    intro hfe
    rw [extraOf, List.mem_filter] at hfe
    have h3 : ¬ ((bd.files.map Prod.fst).contains f = true) :=
      of_decide_eq_true hfe.2
    exact h3 (List.elem_iff.mpr hf)
  · intro p2 s2 hmem2 hz
    rw [diffAll_missing_lookup bd.files (e :: rest) p2 s2 hNp hmem2]
    have hmz : missingOf bd.files s2.files = bd.files.map Prod.fst := by
      rw [hz, missingOf]
      simp
    rw [hmz]
    split
    · next hc => rw [List.isEmpty_eq_true.mp hc]; rfl
    · rw [Option.getD_some]

/-- Witness for C7: baseline with two files, other platform with zero
files. -/
theorem missing_entry_isolated_witness :
    ["SKILL.md"] ∈ (((compare_skill_versions
          [("A", specSnapB), ("C", specSnapEmpty)]).missing_files.lookup "C").getD [])
      ∧ ["SKILL.md"] ∉ (((compare_skill_versions
          [("A", specSnapB), ("C", specSnapEmpty)]).extra_files.lookup "C").getD [])
      ∧ (∀ me ∈ (((compare_skill_versions
            [("A", specSnapB), ("C", specSnapEmpty)]).modified_files.lookup "C").getD []),
          me.file ≠ ["SKILL.md"])
      ∧ (∀ q l, (compare_skill_versions
            [("A", specSnapB), ("C", specSnapEmpty)]).extra_files.lookup q = some l →
          ["SKILL.md"] ∉ l)
      ∧ (∀ p2 s2, (p2, s2) ∈ [("C", specSnapEmpty)] → s2.files = [] →
          (((compare_skill_versions
              [("A", specSnapB), ("C", specSnapEmpty)]).missing_files.lookup p2).getD [])
            = specSnapB.files.map Prod.fst) :=
  missing_entry_isolated "A" specSnapB ("C", specSnapEmpty) [] "C" specSnapEmpty
    ["SKILL.md"] (by decide) (by decide) (by decide) (by decide) (by decide)

/-! ## Claim C1: amended -/

/-- C1 amended: in file-level comparison, hashes are compared as plain
strings.  A common path whose hashes differ — in particular one side the
sentinel "ERROR" and the other a genuine digest, which can never equal it
since an MD5 hexdigest has 32 characters — is reported as a modification
with both hashes; but when the hashes coincide (in particular the sentinel
on BOTH sides) no modification entry is produced, so two unreadable copies
are classified as identical. -/
theorem error_sentinel_amended (bp : String) (bd : SnapData)
    (e : String × SnapData) (rest : List (String × SnapData))
    (p : String) (s : SnapData) (f : Path) (bi oi : FileInfo)
    (hsc : symlinkShortcut ((bp, bd) :: e :: rest) = false)
    (hNp : ((e :: rest).map Prod.fst).Nodup)
    (hNb : (bd.files.map Prod.fst).Nodup)
    (hmem : (p, s) ∈ e :: rest)
    (hb : bd.files.lookup f = some bi)
    (ho : s.files.lookup f = some oi) :
    (bi.hash ≠ oi.hash →
        ModEntry.mk f bi.hash oi.hash
          ∈ (((compare_skill_versions
              ((bp, bd) :: e :: rest)).modified_files.lookup p).getD []))
      ∧ (bi.hash = oi.hash →
          ∀ me ∈ (((compare_skill_versions
              ((bp, bd) :: e :: rest)).modified_files.lookup p).getD []),
            me.file ≠ f)
      ∧ (∀ h2, isMd5Hex h2 = true → h2 ≠ "ERROR") := by
  rw [compare_eq_file bp bd e rest hsc]
  refine ⟨?_, ?_, ?_⟩
  · intro hne
    have hfilter := modifiedOf_filter_eq bd.files s.files f bi oi hNb hb ho hne
    have hmd : modifiedOf bd.files s.files ≠ [] := by
      intro hc
      rw [hc] at hfilter
      exact List.noConfusion hfilter
    rw [diffAll_modified_lookup bd.files (e :: rest) p s hNp hmem,
      if_neg (by simp [hmd]), Option.getD_some]
    have : ModEntry.mk f bi.hash oi.hash
        ∈ (modifiedOf bd.files s.files).filter (fun me => me.file == f) := by
      rw [hfilter]
      exact List.mem_singleton.mpr rfl
    exact List.mem_of_mem_filter this
  · intro heq
    rw [diffAll_modified_lookup bd.files (e :: rest) p s hNp hmem]
    split
    · simp
    · rw [Option.getD_some]
      refine modifiedOf_no_entry bd.files s.files f (fun bi2 oi2 hb2 ho2 => ?_)
      have h1 : bi2 = bi := Option.some.inj (hb2.symm.trans hb)
      have h2 : oi2 = oi := Option.some.inj (ho2.symm.trans ho)
      rw [h1, h2, heq]
  · intro h2 hmd5 hcontra
    rw [hcontra] at hmd5
    have : isMd5Hex "ERROR" = false := by decide
    exact Bool.noConfusion (this.symm.trans hmd5)

/-- Witness for C1 amended: one side unreadable (sentinel), the other a
genuine digest. -/
theorem error_sentinel_amended_witness :
    ((ModEntry.mk ["SKILL.md"] "ERROR" "0cc175b9c0f1b6a831c399e269772661").base_hash
        ≠ (ModEntry.mk ["SKILL.md"] "ERROR" "0cc175b9c0f1b6a831c399e269772661").other_hash)
      ∧ ((("ERROR" : String) ≠ "0cc175b9c0f1b6a831c399e269772661" →
          ModEntry.mk ["SKILL.md"] "ERROR" "0cc175b9c0f1b6a831c399e269772661"
            ∈ (((compare_skill_versions
                [("claude", errSnapOne), ("codex", md5SnapOne)]).modified_files.lookup
                  "codex").getD []))
        ∧ (("ERROR" : String) = "0cc175b9c0f1b6a831c399e269772661" →
            ∀ me ∈ (((compare_skill_versions
                [("claude", errSnapOne), ("codex", md5SnapOne)]).modified_files.lookup
                  "codex").getD []),
              me.file ≠ ["SKILL.md"])
        ∧ (∀ h2, isMd5Hex h2 = true → h2 ≠ "ERROR")) :=
  ⟨by decide,
   error_sentinel_amended "claude" errSnapOne ("codex", md5SnapOne) [] "codex"
     md5SnapOne ["SKILL.md"] ⟨"ERROR", 5⟩ ⟨"0cc175b9c0f1b6a831c399e269772661", 1⟩
     (by decide) (by decide) (by decide) (by decide) (by decide) (by decide)⟩

/-! ## Claim C2: amended -/

/-- C2 amended: with at least one non-symlink and the all-symlinks check
failed, the classifier returns SYNCED via the hub-and-spoke rule exactly
when SOME symlink's recorded target equals some non-symlink snapshot's
path — one matching symlink suffices even if other symlinks point
elsewhere; only when no symlink matches does classification proceed to the
file-level statuses. -/
theorem hub_spoke_exists_semantics (bp : String) (bd : SnapData)
    (e : String × SnapData) (rest : List (String × SnapData))
    (hAll : allLinkedSame ((bp, bd) :: e :: rest) = false) :
    (hubSpoke ((bp, bd) :: e :: rest) = true →
        (compare_skill_versions ((bp, bd) :: e :: rest)).status = Status.synced)
      ∧ (hubSpoke ((bp, bd) :: e :: rest) = false →
          (compare_skill_versions ((bp, bd) :: e :: rest)).status ≠ Status.synced) := by
  constructor
  · intro hHub
    rw [compare_eq_hub bp bd e rest hAll hHub]
  · intro hHub
    have hsc : symlinkShortcut ((bp, bd) :: e :: rest) = false := by
      rw [symlinkShortcut, hAll, hHub]
      simp
    rw [compare_eq_file bp bd e rest hsc]
    rcases diffAll_status_ok_or_drift bd.files (e :: rest) with h | h <;> simp [h]

/-- Witness for C2 amended at the stray-symlink configuration. -/
theorem hub_spoke_exists_semantics_witness :
    hubSpoke hubStrayData = true
      ∧ (compare_skill_versions hubStrayData).status = Status.synced :=
  ⟨by decide,
   (hub_spoke_exists_semantics "claude" ⟨["a"], [], false, none⟩
      ("codex", ⟨["x"], [], true, some ["a"]⟩)
      [("gemini", ⟨["g"], [], true, some ["elsewhere"]⟩)] (by decide)).1 (by decide)⟩

/-! ## Claim C9 -/

/-- C9: when the target exists as a real directory and the conflict is
resolved by skipping (no force, real run, prompt declined), the reconciler
records a skipped outcome and returns the filesystem unchanged
byte-for-byte. -/
theorem skip_preserves_filesystem (ctx : SyncCtx) (fs : Fs) (p : String) (td : Path)
    (h1 : ctx.platform_paths.lookup p = some td)
    (h2 : (fs.lookup td).isSome = true)
    (h3 : fs.lookup (targetSkill ctx td) = some Node.dir)
    (h4 : ctx.force = false) (h5 : ctx.dry_run = false)
    (h6 : ctx.ask (targetSkill ctx td) = false) :
    syncOne ctx fs p = (fs, SyncOutcome.skipped) := by
  simp [syncOne, h1, h4, h5, h6, mkdirP_of_present fs td h2,
    pathExists_of_lookup_dir fs (targetSkill ctx td) h3]

/-- Witness for C9 at a concrete filesystem with an existing target
directory. -/
theorem skip_preserves_filesystem_witness :
    fsExistingTarget.lookup (targetSkill ctxDecline ["t"]) = some Node.dir
      ∧ syncOne ctxDecline fsExistingTarget "codex"
          = (fsExistingTarget, SyncOutcome.skipped) :=
  ⟨by decide,
   skip_preserves_filesystem ctxDecline fsExistingTarget "codex" ["t"]
     (by decide) (by decide) (by decide) (by decide) (by decide) (by decide)⟩

/-! ## Claim C8 -/

/-- The reconciliation loop records exactly one outcome per requested
platform. -/
theorem sync_counts (ctx : SyncCtx) (ps : List String) :
    ∀ fs : Fs,
      (sync_skill ctx fs ps).2.success.length + (sync_skill ctx fs ps).2.skipped.length
        + (sync_skill ctx fs ps).2.failed.length = ps.length := by
  induction ps with
  | nil => intro fs; rfl
  | cons p t ih =>
    intro fs
    have hrec := ih (syncOne ctx fs p).1
    rcases ho : (syncOne ctx fs p).2 with _ | _ | _ <;>
      simp only [sync_skill, ho, List.length_cons] <;> omega

/-- C8: an I/O error while linking or copying one target yields FAILED for
that target only — the remaining targets are still processed, each
receiving exactly one outcome, and the success/skipped lists are exactly
those of the remaining run. -/
theorem io_failure_isolated (ctx : SyncCtx) (fs : Fs) (p : String)
    (rest : List String) (td : Path)
    (h1 : ctx.platform_paths.lookup p = some td)
    (h2 : ctx.errs (targetSkill ctx td) = true)
    (h3 : ctx.force = true ∨ ctx.ask (targetSkill ctx td) = true)
    (h4 : ctx.dry_run = false) :
    (sync_skill ctx fs (p :: rest)).2.failed
        = p :: (sync_skill ctx (syncOne ctx fs p).1 rest).2.failed
      ∧ (sync_skill ctx fs (p :: rest)).2.success
        = (sync_skill ctx (syncOne ctx fs p).1 rest).2.success
      ∧ (sync_skill ctx fs (p :: rest)).2.skipped
        = (sync_skill ctx (syncOne ctx fs p).1 rest).2.skipped
      ∧ (sync_skill ctx (syncOne ctx fs p).1 rest).2.success.length
          + (sync_skill ctx (syncOne ctx fs p).1 rest).2.skipped.length
          + (sync_skill ctx (syncOne ctx fs p).1 rest).2.failed.length
          = rest.length := by
  have hout : (syncOne ctx fs p).2 = SyncOutcome.failed := by
    rcases h3 with h3 | h3 <;> by_cases hm : ctx.mode = "symlink" <;>
      simp [syncOne, h1, h3, h4, hm, symlink_skill, copy_skill, h2]
  refine ⟨?_, ?_, ?_, sync_counts ctx rest (syncOne ctx fs p).1⟩ <;>
    simp only [sync_skill, hout]

/-- Witness for C8: injected failure at the codex target, one further
target in the list. -/
theorem io_failure_isolated_witness :
    ctxForceErr.errs (targetSkill ctxForceErr ["t"]) = true
      ∧ ((sync_skill ctxForceErr fsFreshTarget ["codex", "gemini"]).2.failed
          = "codex" :: (sync_skill ctxForceErr
              (syncOne ctxForceErr fsFreshTarget "codex").1 ["gemini"]).2.failed
        ∧ (sync_skill ctxForceErr fsFreshTarget ["codex", "gemini"]).2.success
          = (sync_skill ctxForceErr
              (syncOne ctxForceErr fsFreshTarget "codex").1 ["gemini"]).2.success
        ∧ (sync_skill ctxForceErr fsFreshTarget ["codex", "gemini"]).2.skipped
          = (sync_skill ctxForceErr
              (syncOne ctxForceErr fsFreshTarget "codex").1 ["gemini"]).2.skipped
        ∧ (sync_skill ctxForceErr
              (syncOne ctxForceErr fsFreshTarget "codex").1 ["gemini"]).2.success.length
            + (sync_skill ctxForceErr
                (syncOne ctxForceErr fsFreshTarget "codex").1 ["gemini"]).2.skipped.length
            + (sync_skill ctxForceErr
                (syncOne ctxForceErr fsFreshTarget "codex").1 ["gemini"]).2.failed.length
            = (["gemini"] : List String).length) :=
  ⟨by decide,
   io_failure_isolated ctxForceErr fsFreshTarget "codex" ["gemini"] ["t"]
     (by decide) (by decide) (Or.inl (by decide)) (by decide)⟩

/-! ## Claim C3: amended -/

/-- C3 amended: the dry run predicts the real per-target outcome whenever
the real run actually performs the operation (or the platform is unknown,
where both report FAILED).  The preview can diverge only on the
prompt-skip path — which a dry run never takes — or on an I/O failure. -/
theorem dry_run_parity_of_real_action (ctx : SyncCtx) (fs : Fs) (p : String)
    (hd : ctx.dry_run = false)
    (h : (syncOne ctx fs p).2 = SyncOutcome.success
          ∨ ctx.platform_paths.lookup p = none) :
    (syncOne { ctx with dry_run := true } fs p).2 = (syncOne ctx fs p).2 := by
  rcases hl : ctx.platform_paths.lookup p with _ | td
  · have hl2 : ({ ctx with dry_run := true } : SyncCtx).platform_paths.lookup p
        = none := hl
    simp only [syncOne, hl, hl2]
  · have hsucc : (syncOne ctx fs p).2 = SyncOutcome.success := by
      rcases h with h | h
      · exact h
      · rw [hl] at h
        exact Option.noConfusion h
    rw [hsucc]
    have hl2 : ({ ctx with dry_run := true } : SyncCtx).platform_paths.lookup p
        = some td := hl
    by_cases hm : ctx.mode = "symlink" <;>
      simp [syncOne, hl2, hm, symlink_skill, copy_skill]

/-- Witness for C3 amended: fresh target, force off, real link succeeds. -/
theorem dry_run_parity_of_real_action_witness :
    (syncOne ctxDecline fsFreshTarget "codex").2 = SyncOutcome.success
      ∧ (syncOne { ctxDecline with dry_run := true } fsFreshTarget "codex").2
        = (syncOne ctxDecline fsFreshTarget "codex").2 :=
  ⟨by decide,
   dry_run_parity_of_real_action ctxDecline fsFreshTarget "codex" (by decide)
     (Or.inl (by decide))⟩

/-! ## Claim C4: amended -/

/-- C4 amended: only `distribute_skills` detects an already-correct link;
it records the second run against a target already symlinked to the
source's resolved path as a SKIPPED no-op ("Already linked correctly"),
never FAILED, and leaves the filesystem untouched.  (`sync_skill` has no
such branch: a forced second run re-creates the link and reports plain
success — see the counterexample.) -/
theorem distribute_already_linked_skips (ask errs : Path → Bool) (fs : Fs)
    (skill_path : Path) (skill_name : String) (pp : List (String × Path))
    (force : Bool) (p : String) (td : Path)
    (h1 : pp.lookup p = some td)
    (h2 : (fs.lookup td).isSome = true)
    (h3 : fs.isLink (td ++ [skill_name]) = true)
    (h4 : resolveLink fs 40 (td ++ [skill_name]) = resolveLink fs 40 skill_path)
    (h5 : (resolveLink fs 40 skill_path).isSome = true) :
    distributeOne ask errs fs skill_path skill_name pp false force p
      = (fs, SyncOutcome.skipped) := by
  obtain ⟨q, hq⟩ := Option.isSome_iff_exists.mp h5
  rw [hq] at h4
  simp only [distributeOne, h1, mkdirP_of_present fs td h2, h3, h4, hq,
    Bool.or_true, Bool.true_and, if_true, ite_false, ite_true, Bool.false_eq_true]
  simp

/-- Witness for C4 amended at the already-linked filesystem. -/
theorem distribute_already_linked_skips_witness :
    fsLinkedTarget.isLink (["t"] ++ ["s"]) = true
      ∧ distributeOne (fun _ => false) (fun _ => false) fsLinkedTarget
          ["src", "s"] "s" [("codex", ["t"])] false false "codex"
        = (fsLinkedTarget, SyncOutcome.skipped) :=
  ⟨by decide,
   distribute_already_linked_skips (fun _ => false) (fun _ => false) fsLinkedTarget
     ["src", "s"] "s" [("codex", ["t"])] false "codex" ["t"]
     (by decide) (by decide) (by decide) (by decide) (by decide)⟩

/-! ## Claim C5: amended -/

/-- Platforms reported by the locator are configured platforms. -/
theorem find_keys_sub (md5 : List Nat → String) (fs : Fs)
    (t : List (String × Path)) (name : String) (q : String)
    (hq : q ∈ (find_skill_across_platforms md5 fs t name).map Prod.fst) :
    q ∈ t.map Prod.fst := by
  obtain ⟨y, hy, rfl⟩ := List.mem_map.mp hq
  obtain ⟨x, hx, hfx⟩ := List.mem_filterMap.mp hy
  by_cases hex : fs.pathExists (x.2 ++ [name]) = true
  · rw [if_pos hex] at hfx
    have h2 := Option.some.inj hfx
    rw [← h2]
    exact List.mem_map.mpr ⟨x, hx, rfl⟩
  · rw [if_neg hex] at hfx
    exact Option.noConfusion hfx

/-- C5 amended: a platform appears in the locator's result exactly when
`root/skill_name` exists after following symlinks; a dangling symbolic
link fails that gate and the platform is omitted (treated as not
installed) rather than reported with is_symlink true.  The locator never
raises (it is a total function) and, when the path does exist, reports
is_symlink and the resolved link target. -/
theorem locate_existence_gate (md5 : List Nat → String) (fs : Fs)
    (paths : List (String × Path)) (name : String) (p : String) (root : Path)
    (hN : (paths.map Prod.fst).Nodup)
    (hp : paths.lookup p = some root) :
    (find_skill_across_platforms md5 fs paths name).lookup p
      = (if fs.pathExists (root ++ [name]) then
          some (locSnap md5 fs (root ++ [name])) else none) := by
  induction paths with
  | nil => cases hp
  | cons e t ih =>
    obtain ⟨a, ra⟩ := e
    simp only [List.map_cons, List.nodup_cons] at hN
    by_cases hpa : p = a
    · subst hpa
      rw [List.lookup_cons_self] at hp
      have hr := Option.some.inj hp
      subst hr
      simp only [find_skill_across_platforms, List.filterMap_cons]
      by_cases hex : fs.pathExists (ra ++ [name]) = true
      · rw [if_pos hex, if_pos hex]
        rw [List.lookup_cons_self]
      · rw [if_neg hex, if_neg hex]
        apply lookup_eq_none_of_not_mem_keys
        intro hmem
        exact hN.1 (find_keys_sub md5 fs t name p hmem)
    · have hbe : (p == a) = false := beq_eq_false_iff_ne.mpr hpa
      rw [List.lookup_cons, hbe] at hp
      have hrec := ih hN.2 hp
      simp only [find_skill_across_platforms, List.filterMap_cons] at hrec ⊢
      by_cases hex : fs.pathExists (ra ++ [name]) = true
      · rw [if_pos hex, List.lookup_cons, hbe]
        exact hrec
      · rw [if_neg hex]
        exact hrec

/-- Witness for C5 amended at the dangling-symlink filesystem. -/
theorem locate_existence_gate_witness :
    fsDangling.isLink (["h", ".claude", "skills"] ++ ["myskill"]) = true
      ∧ fsDangling.pathExists (["h", ".claude", "skills"] ++ ["myskill"]) = false
      ∧ (find_skill_across_platforms constHash fsDangling
            [("claude", ["h", ".claude", "skills"])] "myskill").lookup "claude"
        = (if fsDangling.pathExists (["h", ".claude", "skills"] ++ ["myskill"]) then
            some (locSnap constHash fsDangling (["h", ".claude", "skills"] ++ ["myskill"]))
          else none) :=
  ⟨by decide, by decide,
   locate_existence_gate constHash fsDangling [("claude", ["h", ".claude", "skills"])]
     "myskill" "claude" ["h", ".claude", "skills"] (by decide) (by decide)⟩

end SkillManager
